import Mathlib

/-!
Verification of the single-script ONNX/CNTK inference pipeline
(`onnx_cntk_inference.py`).

The script, line by line:
  15  z = C.Function.load("vgg16.onnx", device=cpu, format=ONNX)
  16  print("Loaded vgg16.onnx!")
  17  img = Image.open("Siberian_Husky_bi-eyed_Flickr.jpg")
  18  img = img.resize((224,224))
  19  rgb_img = np.asarray(img, dtype=np.float32) - 128
  20  bgr_img = rgb_img[..., [2,1,0]]
  21  img_data = np.ascontiguousarray(np.rollaxis(bgr_img,2))
  22  predictions = np.squeeze(z.eval({z.arguments[0]:[img_data]}))
  23  top_class = np.argmax(predictions)
  24  print(top_class)
  25  labels_dict = pickle.load(open("imagenet1000_clsid_to_human.pkl", "rb"))
  26  print(labels_dict[top_class])

Pixel values are 8-bit integers; conversion to 32-bit floats and the
subtraction of the constant 128 are exact on that range, so array values
are embedded as `Int`.  Score vectors are embedded as `List ℚ`
(comparisons of rationals mirror the total order on the finite float
scores numpy compares).  The label dictionary is embedded as an
association list.
-/

/-- A three-dimensional numpy-style array: an explicit shape `(d0, d1, d2)`
together with a total value function (entries outside the shape are
irrelevant junk; theorems quantify only inside the shape). Decoded images
are `(height, width, channels)` arrays as produced by `np.asarray(img)`. -/
structure Arr3 where
  d0 : Nat
  d1 : Nat
  d2 : Nat
  val : Nat → Nat → Nat → Int

/-- Line 19, `np.asarray(img, dtype=np.float32) - 128`: convert to floats
(exact on 8-bit pixel values, hence modelled on `Int`) and subtract the
constant bias 128 from every channel value of every pixel. -/
def rgbSub128 (A : Arr3) : Arr3 :=
  ⟨A.d0, A.d1, A.d2, fun i j k => A.val i j k - 128⟩

/-- Line 20, `rgb_img[..., [2,1,0]]`: numpy fancy indexing on the last
axis with the index list `[2,1,0]`.  The result's last dimension is the
length of the index list (3), and entry `k` of the last axis is taken
from entry `[2,1,0][k]` of the source's last axis. -/
def bgrSelect (A : Arr3) : Arr3 :=
  ⟨A.d0, A.d1, 3, fun i j k => A.val i j ([2, 1, 0].getD k 0)⟩

/-- Line 21, `np.rollaxis(bgr_img, 2)`: roll axis 2 to position 0, so a
`(H, W, C)` array becomes a `(C, H, W)` array with
`result[c][i][j] = a[i][j][c]`. -/
def rollaxis2 (A : Arr3) : Arr3 :=
  ⟨A.d2, A.d0, A.d1, fun c i j => A.val i j c⟩

/-- Line 21, `np.ascontiguousarray`: forces a contiguous memory layout;
on logical values it is the identity. -/
def ascontiguousarray (A : Arr3) : Arr3 := A

/-- Lines 19-21 applied to a decoded (already resized) image array:
subtract 128, reorder the last axis RGB→BGR, move the channel axis to
the front, and make the result contiguous. -/
def img_data (A : Arr3) : Arr3 :=
  ascontiguousarray (rollaxis2 (bgrSelect (rgbSub128 A)))

/-- Line 18, `img.resize((224,224))`.  Modelled from the spec: PIL's
`Image.resize` is external library code; the spec fixes only that the
result has exactly 224×224 spatial resolution with the decoder's default
resampling policy.  Resampling is modelled as index rescaling; every
resampling policy whose weights sum to 1 agrees with it on constant
images and on same-size inputs, which is all the claims use. -/
def resize224 (A : Arr3) : Arr3 :=
  ⟨224, 224, A.d2, fun i j k => A.val (i * A.d0 / 224) (j * A.d1 / 224) k⟩

/-- Lines 17-21: the full preprocessor, from decoded image file to model
input tensor. -/
def preprocessFile (A : Arr3) : Arr3 :=
  img_data (resize224 A)

/-- Line 23, `np.argmax`: index of the first occurrence of the maximum
value of the vector (ties broken toward the lowest index); `0` on the
empty vector, on which numpy instead raises. -/
def argmax : List ℚ → Nat
  | [] => 0
  | x :: xs => if ∀ y ∈ xs, y ≤ x then 0 else argmax xs + 1

/-- Lines 25-26: the unpickled label dictionary, as an association list
from class index to label, and `labels_dict[top_class]` as a lookup that
returns `none` exactly when python would raise `KeyError`. -/
def dictLookup (t : List (Nat × String)) (k : Nat) : Option String :=
  (t.find? (fun p => p.fst == k)).map Prod.snd

/-- The files the script reads.  `none` models a missing (or, for the
pickle, corrupt) file; the loaded model is its evaluation function from
input tensor to score vector (line 22's batch wrap `[img_data]` and the
`np.squeeze` of the singleton batch of results cancel). -/
structure FS where
  model : Option (Arr3 → List ℚ)
  image : Option Arr3
  labels : Option (List (Nat × String))

/-- Observable side effects of the script, in program order: the
confirmation print of line 16, the image-file open of line 17, the
predicted-index print of line 24, the label-file open/unpickle of
line 25, and the label print of line 26. -/
inductive Event where
  | printLoaded
  | openImage
  | printIndex (n : Nat)
  | loadLabels
  | printLabel (s : String)
  deriving DecidableEq

/-- Lines 15-26: the whole script.  Returns the ordered list of side
effects it performed before completing or dying, and `some label` on a
complete run, `none` when a step failed fatally (missing model file,
missing image file, missing/corrupt label file, or `KeyError` on the
final lookup).  A failing step contributes no event: the script dies
inside it. -/
def runScript (fs : FS) : List Event × Option String :=
  match fs.model with
  | none => ([], none)
  | some z =>
    match fs.image with
    | none => ([Event.printLoaded], none)
    | some img =>
      let top := argmax (z (preprocessFile img))
      match fs.labels with
      | none => ([Event.printLoaded, Event.openImage, Event.printIndex top], none)
      | some tbl =>
        match dictLookup tbl top with
        | none =>
            ([Event.printLoaded, Event.openImage, Event.printIndex top,
              Event.loadLabels], none)
        | some lab =>
            ([Event.printLoaded, Event.openImage, Event.printIndex top,
              Event.loadLabels, Event.printLabel lab], some lab)

/-- A constant 224×224×3 image with every channel value `v`. -/
def constImg (v : Int) : Arr3 :=
  ⟨224, 224, 3, fun _ _ _ => v⟩

/-- The score list of every element of `l` is bounded by the element at
`argmax l`, which is the first position reaching the maximum. -/
theorem argmax_spec (l : List ℚ) (hne : l ≠ []) :
    argmax l < l.length ∧
    (∀ i, i < l.length → l.getD i 0 ≤ l.getD (argmax l) 0) ∧
    (∀ i, i < l.length → l.getD i 0 = l.getD (argmax l) 0 → argmax l ≤ i) := by
  induction l with
  | nil => exact absurd rfl hne
  | cons x xs ih =>
    by_cases hall : ∀ y ∈ xs, y ≤ x
    · refine ⟨?_, ?_, ?_⟩
      · simp only [argmax, if_pos hall, List.length_cons]
        omega
      · intro i hi
        simp only [argmax, if_pos hall]
        match i with
        | 0 => simp
        | j + 1 =>
          simp only [List.getD_cons_succ, List.getD_cons_zero]
          have hj : j < xs.length := by simpa using hi
          have hmem : xs.getD j 0 ∈ xs := by
            rw [List.getD_eq_getElem xs 0 hj]
            exact List.getElem_mem hj
          exact hall _ hmem
      · intro i _ _
        simp only [argmax, if_pos hall]
        exact Nat.zero_le i
    · have hxs : xs ≠ [] := by
        intro h
        exact hall (by simp [h])
      obtain ⟨ih1, ih2, ih3⟩ := ih hxs
      have hex : ∃ y ∈ xs, x < y := by
        push_neg at hall
        exact hall
      obtain ⟨y, hy, hxy⟩ := hex
      obtain ⟨jy, hjy, hjy_eq⟩ := List.mem_iff_getElem.mp hy
      have hyM : y ≤ xs.getD (argmax xs) 0 := by
        have hle := ih2 jy hjy
        rwa [List.getD_eq_getElem xs 0 hjy, hjy_eq] at hle
      have hxM : x < xs.getD (argmax xs) 0 := lt_of_lt_of_le hxy hyM
      refine ⟨?_, ?_, ?_⟩
      · simp only [argmax, if_neg hall, List.length_cons]
        omega
      · intro i hi
        simp only [argmax, if_neg hall, List.getD_cons_succ]
        match i with
        | 0 => exact le_of_lt hxM
        | j + 1 =>
          simp only [List.getD_cons_succ]
          exact ih2 j (by simpa using hi)
      · intro i hi heq
        simp only [argmax, if_neg hall, List.getD_cons_succ] at heq ⊢
        match i with
        | 0 =>
          rw [List.getD_cons_zero] at heq
          exact absurd heq (ne_of_lt hxM)
        | j + 1 =>
          rw [List.getD_cons_succ] at heq
          exact Nat.succ_le_succ (ih3 j (by simpa using hi) heq)

/-- Looking up any key that occurs among the first components of an
association list succeeds. -/
theorem dictLookup_isSome_of_mem_keys (t : List (Nat × String)) (k : Nat)
    (h : k ∈ t.map Prod.fst) : (dictLookup t k).isSome = true := by
  induction t with
  | nil => simp at h
  | cons p t ih =>
    by_cases hk : p.fst == k
    · unfold dictLookup
      simp only [List.find?, hk]
      rfl
    · have hkf : (p.fst == k) = false := by simpa using hk
      have hmem : k ∈ t.map Prod.fst := by
        rcases (by simpa using h : k = p.fst ∨ ∃ s, (k, s) ∈ t) with h1 | ⟨s, hs⟩
        · exact absurd (by simp [h1]) hk
        · exact List.mem_map.mpr ⟨(k, s), hs, rfl⟩
      unfold dictLookup
      simp only [List.find?, hkf]
      exact ih hmem

/-- The table whose entries are `(i, s)` for `i < n` has key list
`range n`. -/
theorem keys_rangeTable (n : Nat) (s : String) :
    ((List.range n).map (fun i => (i, s))).map Prod.fst = List.range n := by
  have hcomp : (Prod.fst ∘ fun i : Nat => (i, s)) = id := rfl
  rw [List.map_map, hcomp, List.map_id]

/-- A constant 224×224×4 (RGBA-style) image with every channel value `v`. -/
def constImg4 (v : Int) : Arr3 :=
  ⟨224, 224, 4, fun _ _ _ => v⟩

/-- A demonstration file system: stubbed model evaluation returning the
fixed score vector `[0.1, 0.9, 0.05]`, an all-zero image, and the label
table `{0: "a", 1: "b"}`. -/
def fsDemo : FS :=
  ⟨some (fun _ => [(1 : ℚ)/10, 9/10, 1/20]), some (constImg 0),
    some [(0, "a"), (1, "b")]⟩

/-- A file system whose model file is missing. -/
def fsNoModel : FS :=
  ⟨none, some (constImg 0), some [(0, "a"), (1, "b")]⟩

/-- A file system whose label file is missing. -/
def fsNoLabels : FS :=
  ⟨some (fun _ => [(1 : ℚ)/10, 9/10, 1/20]), some (constImg 0), none⟩

/-- C1: for every decoded 224×224 3-channel image array `A` of 8-bit
pixel values, the preprocessed tensor `T = img_data A` satisfies
`T[c][h][w] = A[h][w][2-c] - 128` for all `c < 3`, `h, w < 224`: the
bias 128 is subtracted from every channel value, the channel axis is
reversed RGB→BGR, and the channel axis is moved to the first position. -/
theorem c1_preprocess_pointwise (A : Arr3)
    (h0 : A.d0 = 224) (h1 : A.d1 = 224) (h2 : A.d2 = 3)
    (hpix : ∀ i j k, 0 ≤ A.val i j k ∧ A.val i j k ≤ 255) :
    ∀ c h w, c < 3 → h < 224 → w < 224 →
      (img_data A).val c h w = A.val h w (2 - c) - 128 := by
  intro c h w hc _ _
  have hc3 : c = 0 ∨ c = 1 ∨ c = 2 := by omega
  rcases hc3 with rfl | rfl | rfl <;> rfl

/-- Witness for C1 at the constant image with pixel value 9 and index
`(c,h,w) = (0,1,2)`. -/
theorem c1_witness :
    (img_data (constImg 9)).val 0 1 2 = (constImg 9).val 1 2 (2 - 0) - 128 :=
  c1_preprocess_pointwise (constImg 9) rfl rfl rfl
    (fun i j k => ⟨by show (0 : Int) ≤ 9; decide, by show (9 : Int) ≤ 255; decide⟩)
    0 1 2 (by omega) (by omega) (by omega)

/-- C2: for every input image decoding to a 3-channel pixel grid,
whatever its original spatial dimensions, the preprocessor's output
tensor has shape (3, 224, 224). -/
theorem c2_shape (A : Arr3) (h2 : A.d2 = 3) :
    (preprocessFile A).d0 = 3 ∧ (preprocessFile A).d1 = 224 ∧
      (preprocessFile A).d2 = 224 :=
  ⟨rfl, rfl, rfl⟩

/-- Witness for C2 at the constant zero image. -/
theorem c2_witness :
    (preprocessFile (constImg 0)).d0 = 3 ∧
      (preprocessFile (constImg 0)).d1 = 224 ∧
      (preprocessFile (constImg 0)).d2 = 224 :=
  c2_shape (constImg 0) rfl

/-- C3: for every non-empty score vector, `argmax` returns an in-range
index whose entry is maximal, and any position holding the same maximal
value lies at or after the returned index (ties broken toward the lowest
index). -/
theorem c3_argmax_first_max (l : List ℚ) (hne : l ≠ []) :
    argmax l < l.length ∧
    (∀ i, i < l.length → l.getD i 0 ≤ l.getD (argmax l) 0) ∧
    (∀ i, i < l.length → l.getD i 0 = l.getD (argmax l) 0 → argmax l ≤ i) :=
  argmax_spec l hne

/-- Witness for C3 at a vector with a tied maximum: indices 1 and 2 tie,
and index 1 is returned. -/
theorem c3_witness :
    argmax [(1 : ℚ)/2, 3/4, 3/4] = 1 ∧
      argmax [(1 : ℚ)/2, 3/4, 3/4] < ([(1 : ℚ)/2, 3/4, 3/4]).length :=
  ⟨by norm_num [argmax], (c3_argmax_first_max [(1 : ℚ)/2, 3/4, 3/4] (by simp)).1⟩

/-- C4: for every score vector of length exactly 1000 and every label
table whose keys are exactly the integers 0..999, the predicted index
lies in [0, 999] and the final label lookup succeeds. -/
theorem c4_index_in_table (scores : List ℚ) (t : List (Nat × String))
    (hlen : scores.length = 1000) (hkeys : t.map Prod.fst = List.range 1000) :
    argmax scores ≤ 999 ∧ (dictLookup t (argmax scores)).isSome = true := by
  have hne : scores ≠ [] := by
    intro h
    rw [h] at hlen
    simp at hlen
  have hlt := (argmax_spec scores hne).1
  rw [hlen] at hlt
  refine ⟨by omega, ?_⟩
  apply dictLookup_isSome_of_mem_keys
  rw [hkeys]
  exact List.mem_range.mpr hlt

/-- Witness for C4 at a 1000-entry constant score vector and the table
with keys 0..999. -/
theorem c4_witness :
    argmax (List.replicate 1000 (0 : ℚ)) ≤ 999 ∧
      (dictLookup ((List.range 1000).map (fun i => (i, "label")))
        (argmax (List.replicate 1000 (0 : ℚ)))).isSome = true :=
  c4_index_in_table (List.replicate 1000 0)
    ((List.range 1000).map (fun i => (i, "label")))
    (by rw [List.length_replicate]) (keys_rangeTable 1000 "label")

/-- C5: the pipeline is deterministic in its file inputs: two runs over
equal model, image and label files produce identical event traces (hence
the same printed index and label) and identical results. -/
theorem c5_deterministic (fs1 fs2 : FS) (h : fs1 = fs2) :
    runScript fs1 = runScript fs2 := by
  rw [h]

/-- Witness for C5: two runs over the demonstration file system agree. -/
theorem c5_witness : runScript fsDemo = runScript fsDemo :=
  c5_deterministic fsDemo fsDemo rfl

/-- C6: end-to-end scenario.  Preprocessing the all-zero 224×224 image
yields a tensor every entry of which is -128; `argmax` of the stubbed
score vector `[0.1, 0.9, 0.05]` is 1; and looking up index 1 in the
table `{0: "a", 1: "b"}` yields `"b"`. -/
theorem c6_end_to_end :
    (∀ c h w, c < 3 → h < 224 → w < 224 →
        (preprocessFile (constImg 0)).val c h w = -128) ∧
    argmax [(1 : ℚ)/10, 9/10, 1/20] = 1 ∧
    dictLookup [(0, "a"), (1, "b")] 1 = some "b" := by
  refine ⟨?_, by norm_num [argmax], rfl⟩
  intro c h w hc _ _
  have hc3 : c = 0 ∨ c = 1 ∨ c = 2 := by omega
  rcases hc3 with rfl | rfl | rfl <;> rfl

/-- Witness for C6: the all-zero preprocessed tensor at `(2,5,7)`. -/
theorem c6_witness :
    (preprocessFile (constImg 0)).val 2 5 7 = -128 ∧
      argmax [(1 : ℚ)/10, 9/10, 1/20] = 1 :=
  ⟨c6_end_to_end.1 2 5 7 (by omega) (by omega) (by omega), c6_end_to_end.2.1⟩

/-- C7: if the model file is missing, the run fails fatally with an
empty event trace: in particular the image file is never opened (no
`openImage` event), so no image processing occurs. -/
theorem c7_fail_fast (fs : FS) (h : fs.model = none) :
    Event.openImage ∉ (runScript fs).1 ∧ (runScript fs).2 = none := by
  obtain ⟨m, i, l⟩ := fs
  cases m with
  | none => exact ⟨List.not_mem_nil _, rfl⟩
  | some z => exact absurd h (by simp)

/-- Witness for C7 at a file system whose model file is missing. -/
theorem c7_witness :
    Event.openImage ∉ (runScript fsNoModel).1 ∧
      (runScript fsNoModel).2 = none :=
  c7_fail_fast fsNoModel rfl

/-- C8: the RGB→BGR channel reorder is an involution on 3-channel
arrays: applying it twice preserves the shape and restores every value
inside the shape. -/
theorem c8_involution (A : Arr3) (h2 : A.d2 = 3) :
    (bgrSelect (bgrSelect A)).d0 = A.d0 ∧
    (bgrSelect (bgrSelect A)).d1 = A.d1 ∧
    (bgrSelect (bgrSelect A)).d2 = A.d2 ∧
    ∀ i j k, k < 3 → (bgrSelect (bgrSelect A)).val i j k = A.val i j k := by
  refine ⟨rfl, rfl, h2.symm, ?_⟩
  intro i j k hk
  have hk3 : k = 0 ∨ k = 1 ∨ k = 2 := by omega
  rcases hk3 with rfl | rfl | rfl <;> rfl

/-- Witness for C8 at the constant image with pixel value 5. -/
theorem c8_witness :
    (bgrSelect (bgrSelect (constImg 5))).val 0 0 1 = (constImg 5).val 0 0 1 :=
  (c8_involution (constImg 5) rfl).2.2.2 0 0 1 (by omega)

/-- C9: on a 4-channel (RGBA) decode, the channel reorder selects
exactly channels 2, 1, 0 of the last axis — dropping the fourth, alpha,
channel — so the preprocessed tensor still has exactly 3 channels and
shape (3, 224, 224). -/
theorem c9_rgba_drop (A : Arr3) (h2 : A.d2 = 4) :
    (bgrSelect A).d2 = 3 ∧
    (∀ i j k, k < 3 → (bgrSelect A).val i j k = A.val i j (2 - k)) ∧
    (preprocessFile A).d0 = 3 ∧ (preprocessFile A).d1 = 224 ∧
      (preprocessFile A).d2 = 224 := by
  refine ⟨rfl, ?_, rfl, rfl, rfl⟩
  intro i j k hk
  have hk3 : k = 0 ∨ k = 1 ∨ k = 2 := by omega
  rcases hk3 with rfl | rfl | rfl <;> rfl

/-- Witness for C9 at the constant 4-channel image with value 3. -/
theorem c9_witness :
    (bgrSelect (constImg4 3)).d2 = 3 ∧
      (bgrSelect (constImg4 3)).val 0 0 0 = (constImg4 3).val 0 0 2 :=
  ⟨(c9_rgba_drop (constImg4 3) rfl).1,
    (c9_rgba_drop (constImg4 3) rfl).2.1 0 0 0 (by omega)⟩

/-- C10: when the model and image files are present but the label file
is missing (or corrupt), the run performs exactly the confirmation
print, the image open, and the predicted-index print — in that order —
and only then fails on the label load: the label table is touched only
after inference, the argmax, and the index print have completed. -/
theorem c10_labels_after_print (fs : FS) (z : Arr3 → List ℚ) (img : Arr3)
    (hm : fs.model = some z) (hi : fs.image = some img)
    (hl : fs.labels = none) :
    (runScript fs).1 =
      [Event.printLoaded, Event.openImage,
        Event.printIndex (argmax (z (preprocessFile img)))] ∧
    (runScript fs).2 = none := by
  obtain ⟨m, i, l⟩ := fs
  cases hm
  cases hi
  cases hl
  exact ⟨rfl, rfl⟩

/-- Witness for C10 at a file system whose label file is missing. -/
theorem c10_witness :
    (runScript fsNoLabels).1 =
      [Event.printLoaded, Event.openImage,
        Event.printIndex (argmax ((fun _ => [(1 : ℚ)/10, 9/10, 1/20])
          (preprocessFile (constImg 0))))] ∧
    (runScript fsNoLabels).2 = none :=
  c10_labels_after_print fsNoLabels (fun _ => [(1 : ℚ)/10, 9/10, 1/20])
    (constImg 0) rfl rfl rfl
